import Mathlib

/-!
Shallow embedding of `src/static/script.js` (TextTube browser controller).

Strings are modelled as `List Char`; JavaScript numbers as `JSNum`
(exact rationals plus the non-finite values `Infinity` and `NaN` that
arise from division by zero).  The regular-expression searches
`/(\d+)%/` and `/part (\d+) of (\d+)/` are modelled by explicit
left-to-right scans (`percentMatch`, `partOfMatch`), matching the
leftmost occurrence exactly as `String.prototype.match` does.
-/

/-- JavaScript number produced by the progress interpreter: a finite
rational, positive infinity (from `x/0` with `x > 0`) or `NaN` (from `0/0`). -/
inductive JSNum where
  | fin : ℚ → JSNum
  | inf : JSNum
  | nan : JSNum
deriving DecidableEq, Repr

/-- Substring test, modelling `String.prototype.includes`: `listPrefixB p l`
is true when `p` is a prefix of `l`. -/
def listPrefixB : List Char → List Char → Bool
  | [], _ => true
  | _ :: _, [] => false
  | a :: as, b :: bs => a == b && listPrefixB as bs

/-- Substring containment, modelling `haystack.includes(needle)`. -/
def hasSub (p : List Char) : List Char → Bool
  | [] => listPrefixB p []
  | c :: cs => listPrefixB p (c :: cs) || hasSub p cs

/-- Decimal value of a digit list, modelling `parseInt` on the digits
captured by a regex group. -/
def digitsToNat (ds : List Char) : ℕ :=
  ds.foldl (fun acc c => 10 * acc + (c.toNat - '0'.toNat)) 0

/-- Leftmost match of the regex `/(\d+)%/`, returning the parsed capture:
at each position, a maximal nonempty digit run must be immediately
followed by a percent sign. -/
def percentMatch : List Char → Option ℕ
  | [] => none
  | c :: cs =>
    if (c :: cs).takeWhile Char.isDigit ≠ [] ∧
        ((c :: cs).dropWhile Char.isDigit).head? = some '%' then
      some (digitsToNat ((c :: cs).takeWhile Char.isDigit))
    else percentMatch cs

/-- Remainder of `l` after a literal pattern `p`, or `none` when `p` is not
a prefix of `l`. -/
def stripLit : List Char → List Char → Option (List Char)
  | [], l => some l
  | _ :: _, [] => none
  | a :: as, b :: bs => if a = b then stripLit as bs else none

/-- Keyword `"Starting"` tested by `parseProgress`. -/
def kwStarting : List Char := "Starting".toList

/-- Keyword `"download"` tested by `parseProgress`. -/
def kwDownload : List Char := "download".toList

/-- Keyword `"Processing"` tested by `parseProgress`. -/
def kwProcessing : List Char := "Processing".toList

/-- Keyword `"Transcribing"` tested by `parseProgress`. -/
def kwTranscribing : List Char := "Transcribing".toList

/-- Keyword `"completed"` tested by `parseProgress` and by the polling
completion check. -/
def kwCompleted : List Char := "completed".toList

/-- Match of the regex `/part (\d+) of (\d+)/` anchored at the head of `l`. -/
def matchPartAt (l : List Char) : Option (ℕ × ℕ) :=
  match stripLit ("part ".toList) l with
  | none => none
  | some r1 =>
    if r1.takeWhile Char.isDigit ≠ [] then
      match stripLit (" of ".toList) (r1.dropWhile Char.isDigit) with
      | none => none
      | some r3 =>
        if r3.takeWhile Char.isDigit ≠ [] then
          some (digitsToNat (r1.takeWhile Char.isDigit),
                digitsToNat (r3.takeWhile Char.isDigit))
        else none
    else none

/-- Leftmost match of `/part (\d+) of (\d+)/`, returning both parsed captures. -/
def partOfMatch : List Char → Option (ℕ × ℕ)
  | [] => none
  | c :: cs =>
    match matchPartAt (c :: cs) with
    | some r => some r
    | none => partOfMatch cs

/-- Value of `40 + (parseInt(current) / parseInt(total) * 50)` in JavaScript
arithmetic: division by zero yields `Infinity` (or `NaN` for `0/0`), which
then propagates through the multiplication and addition. -/
def jsPartValue (x y : ℕ) : JSNum :=
  if y = 0 then (if x = 0 then .nan else .inf)
  else .fin (40 + ((x : ℚ) / (y : ℚ)) * 50)

/-- Embedding of `parseProgress` from `src/static/script.js`. -/
def parseProgress (t : List Char) : JSNum :=
  if hasSub ['%'] t then
    match percentMatch t with
    | some n => .fin (n : ℚ)
    | none => .fin 0
  else if hasSub kwStarting t then .fin 5
  else if hasSub kwDownload t then .fin 20
  else if hasSub kwProcessing t then .fin 40
  else
    match (if hasSub kwTranscribing t then partOfMatch t else none) with
    | some (x, y) => jsPartValue x y
    | none => if hasSub kwCompleted t then .fin 100 else .fin 0

/-!
Client session state and event handlers.

The module-level mutable variables (`isTranscribing`, `progressInterval`)
and the DOM elements touched by the script are gathered into one record.
`activeTimers` models the browser's set of live interval timers (ids
handed out by `setInterval` and removed by `clearInterval`), so that
"at most one polling timer is active" is expressible; `nextTimerId` is
the id the browser will hand out next.  Network requests are modelled
as explicit outputs of the handler steps, never performed.
-/

/-- Session and DOM state of the page. -/
structure ClientState where
  isTranscribing : Bool
  progressInterval : Option ℕ
  activeTimers : List ℕ
  nextTimerId : ℕ
  buttonDisabled : Bool
  inputDisabled : Bool
  progressText : List Char
  progressBarValue : JSNum
  transcriptionOutput : List Char
deriving DecidableEq, Repr

/-- State at page load: nothing running, controls enabled, displays empty. -/
def initState : ClientState :=
  { isTranscribing := false, progressInterval := none, activeTimers := [],
    nextTimerId := 0, buttonDisabled := false, inputDisabled := false,
    progressText := [], progressBarValue := .fin 0, transcriptionOutput := [] }

/-- Truthiness of an optional string field: JavaScript treats a missing
field and the empty string as falsy. -/
def truthyStr : Option (List Char) → Bool
  | none => false
  | some s => !s.isEmpty

/-- Value of `o || d` for an optional string `o`, as used in
`data.error || 'Failed to check progress'`. -/
def strOr (o : Option (List Char)) (d : List Char) : List Char :=
  if truthyStr o then o.getD [] else d

/-- Argument record of `updateUI`. -/
structure UIUpdate where
  isT : Bool
  progress : Option JSNum
  message : Option (List Char)
  transcription : Option (List Char)

/-- Value of `state.progress || 0`: a missing field, `0` and `NaN` are
falsy and yield `0`. -/
def jsNumOr0 : Option JSNum → JSNum
  | none => .fin 0
  | some (.fin q) => if q = 0 then .fin 0 else .fin q
  | some .inf => .inf
  | some .nan => .fin 0

/-- Embedding of `updateUI`: writes the control-disabled flags, the
progress bar, the progress text, and (only when truthy) the
transcription output. -/
def applyUpdateUI (st : ClientState) (u : UIUpdate) : ClientState :=
  { st with
    buttonDisabled := u.isT,
    inputDisabled := u.isT,
    progressBarValue := jsNumOr0 u.progress,
    progressText := u.message.getD [],
    transcriptionOutput :=
      if truthyStr u.transcription then u.transcription.getD []
      else st.transcriptionOutput }

/-- Embedding of `resetState`: clears the busy flag, cancels the stored
interval timer when one is present, and re-enables the controls. -/
def resetStateS (st : ClientState) : ClientState :=
  let st1 := { st with isTranscribing := false }
  let st2 :=
    match st1.progressInterval with
    | some id => { st1 with activeTimers := st1.activeTimers.filter (fun t => t != id),
                            progressInterval := none }
    | none => st1
  { st2 with buttonDisabled := false, inputDisabled := false }

/-- Embedding of `showError`: writes the error text and then resets. -/
def showErrorS (st : ClientState) (msg : List Char) : ClientState :=
  resetStateS { st with progressText := ("Error: ".toList) ++ msg }

/-- Embedding of `startProgressChecking`: clears a previously stored
interval if any, then registers a fresh interval timer and stores its id. -/
def startProgressChecking (st : ClientState) : ClientState :=
  let timers :=
    match st.progressInterval with
    | some id => st.activeTimers.filter (fun t => t != id)
    | none => st.activeTimers
  { st with activeTimers := timers ++ [st.nextTimerId],
            progressInterval := some st.nextTimerId,
            nextTimerId := st.nextTimerId + 1 }

/-- Network request issued by a handler. -/
inductive NetRequest where
  | transcribe : List Char → List Char → NetRequest
  | cleanup : NetRequest
deriving DecidableEq, Repr

/-- Leading/trailing whitespace removal, modelling `String.prototype.trim`. -/
def trimL (l : List Char) : List Char :=
  ((l.dropWhile Char.isWhitespace).reverse.dropWhile Char.isWhitespace).reverse

/-- UI update performed at the start of `handleTranscription`. -/
def submitUpdate : UIUpdate :=
  { isT := true, progress := some (.fin 0),
    message := some ("Starting transcription...".toList), transcription := none }

/-- Embedding of the `transcribeButton` click handler: trims the URL,
validates it locally, and only on success enters `handleTranscription`
(busy flag set, UI updated, one `/transcribe` request issued). -/
def clickStep (st : ClientState) (raw modelv : List Char) :
    ClientState × Option NetRequest :=
  let url := trimL raw
  if url.isEmpty then
    (showErrorS st ("Please enter a YouTube URL".toList), none)
  else if !hasSub ("youtube.com/".toList) url && !hasSub ("youtu.be/".toList) url then
    (showErrorS st ("Please enter a valid YouTube URL".toList), none)
  else
    (applyUpdateUI { st with isTranscribing := true } submitUpdate,
     some (.transcribe url modelv))

/-- Reply to the `/transcribe` request, as seen by `handleTranscription`. -/
structure SubmitResponse where
  ok : Bool
  error : Option (List Char)

/-- Embedding of the rest of `handleTranscription`: a non-ok reply throws
`data.error || 'Failed to start transcription'`, which the catch block
routes through `showError`; an ok reply starts the polling interval. -/
def submitResponseStep (st : ClientState) (r : SubmitResponse) : ClientState :=
  if r.ok then startProgressChecking st
  else showErrorS st (strOr r.error ("Failed to start transcription".toList))

/-- Payload of one `/progress` reply, as seen by `checkProgress`. -/
structure ProgressResponse where
  ok : Bool
  progress : Option (List Char)
  transcription : Option (List Char)
  finished : Bool
  error : Option (List Char)

/-- Result of one polling tick: the successor state and how many
`/cleanup` requests the tick issued. -/
structure TickResult where
  state : ClientState
  cleanups : ℕ

/-- First statement of the ok-branch of `checkProgress`: a truthy
`progress` text is parsed and written to the UI. -/
def tickUpdate (st : ClientState) (r : ProgressResponse) : ClientState :=
  if truthyStr r.progress then
    applyUpdateUI st
      { isT := true,
        progress := some (parseProgress (r.progress.getD [])),
        message := some (r.progress.getD []),
        transcription := r.transcription }
  else st

/-- Completion condition of `checkProgress`:
`data.finished || (data.progress && data.progress.includes('completed'))`. -/
def completedFlag (r : ProgressResponse) : Bool :=
  r.finished || (truthyStr r.progress && hasSub kwCompleted (r.progress.getD []))

/-- UI update performed on completion. -/
def completeUpdate (r : ProgressResponse) : UIUpdate :=
  { isT := false, progress := some (.fin 100),
    message := some ("Transcription completed!".toList),
    transcription := r.transcription }

/-- Completion statement of `checkProgress`: on a completion signal the
display is set to 100, the state is reset. -/
def tickComplete (st : ClientState) (r : ProgressResponse) : ClientState :=
  if completedFlag r then resetStateS (applyUpdateUI st (completeUpdate r))
  else st

/-- Embedding of `checkProgress` on a single `/progress` reply `r`:
a non-ok reply throws and is shown as an error; otherwise a truthy
`progress` text updates the UI (`tickUpdate`), a completion signal
(`completedFlag`) sets the display to 100, resets the state and issues
one `/cleanup` request (`tickComplete`), and a truthy `error` field
then throws and is shown as an error. -/
def checkProgressStep (st : ClientState) (r : ProgressResponse) : TickResult :=
  if !r.ok then
    { state := showErrorS st (strOr r.error ("Failed to check progress".toList)),
      cleanups := 0 }
  else if truthyStr r.error then
    { state := showErrorS (tickComplete (tickUpdate st r) r)
        (strOr r.error ("Error checking progress".toList)),
      cleanups := if completedFlag r then 1 else 0 }
  else
    { state := tickComplete (tickUpdate st r) r,
      cleanups := if completedFlag r then 1 else 0 }

/-- Timer bookkeeping invariant: the set of live interval timers is
exactly the stored handle, and every live id was handed out before
`nextTimerId`. -/
def timerOk (st : ClientState) : Bool :=
  match st.progressInterval with
  | none => st.activeTimers.isEmpty
  | some id => st.activeTimers == [id] && id.blt st.nextTimerId

/-- States reachable from page load by the script's event handlers: button
clicks, `/transcribe` replies, and polling ticks (a tick can only fire
while some interval timer is live). -/
inductive Reachable : ClientState → Prop
  | init : Reachable initState
  | click (st : ClientState) (raw modelv : List Char) :
      Reachable st → Reachable (clickStep st raw modelv).1
  | submit (st : ClientState) (r : SubmitResponse) :
      Reachable st → Reachable (submitResponseStep st r)
  | tick (st : ClientState) (r : ProgressResponse) :
      Reachable st → st.activeTimers ≠ [] → Reachable (checkProgressStep st r).state

/-- Condition that the character preceding a digit run is not itself a
digit, i.e. that the run is maximal to the left. -/
def lastNotDigit (a : List Char) : Bool :=
  match a.getLast? with
  | none => true
  | some x => !x.isDigit

/-- Side condition for the percent rule: the matched percentage, when
one exists, is at most 100. -/
def percentOk (t : List Char) : Bool :=
  match percentMatch t with
  | none => true
  | some n => decide (n ≤ 100)

/-- Side condition for the part rule: the matched `part X of Y`, when one
exists, has a positive total and a current part not exceeding it. -/
def partOk (t : List Char) : Bool :=
  match partOfMatch t with
  | none => true
  | some (x, y) => decide (0 < y ∧ x ≤ y)

/-- Statement form of the claim that any maximal digit run immediately
followed by a percent sign is what `parseProgress` returns. -/
def percentClaim : Prop :=
  ∀ (a ds b : List Char), ds ≠ [] → ds.all Char.isDigit = true →
    lastNotDigit a = true →
    parseProgress (a ++ ds ++ '%' :: b) = JSNum.fin ((digitsToNat ds : ℕ) : ℚ)

/-- State reached after submitting a valid URL and receiving an ok reply:
the polling interval with id 0 is live. -/
def demoSubmitted : ClientState :=
  submitResponseStep
    (clickStep initState ("https://youtube.com/watch".toList) ("base".toList)).1
    { ok := true, error := none }

/-- A `/progress` reply carrying only the finished flag. -/
def demoFinished : ProgressResponse :=
  { ok := true, progress := none, transcription := none, finished := true,
    error := none }

/-- A `/progress` reply carrying both a progress text and an error field. -/
def demoErrored : ProgressResponse :=
  { ok := true, progress := some ("Processing audio".toList),
    transcription := none, finished := false, error := some ("boom".toList) }

/-- Branch reduction for the percent branch of `parseProgress` when the
regex matches. -/
lemma parseProgress_percent_some (t : List Char) (n : ℕ)
    (h0 : hasSub ['%'] t = true) (h1 : percentMatch t = some n) :
    parseProgress t = .fin (n : ℚ) := by
  simp [parseProgress, h0, h1]

/-- Branch reduction for the percent branch of `parseProgress` when the
regex does not match: the function still returns 0 without falling
through to the keyword rules. -/
lemma parseProgress_percent_none (t : List Char)
    (h0 : hasSub ['%'] t = true) (h1 : percentMatch t = none) :
    parseProgress t = .fin 0 := by
  simp [parseProgress, h0, h1]

/-- Branch reduction for the `Transcribing … part X of Y` branch. -/
lemma parseProgress_part (t : List Char) (x y : ℕ)
    (h0 : hasSub ['%'] t = false)
    (h1 : hasSub kwStarting t = false)
    (h2 : hasSub kwDownload t = false)
    (h3 : hasSub kwProcessing t = false)
    (h4 : hasSub kwTranscribing t = true)
    (h5 : partOfMatch t = some (x, y)) :
    parseProgress t = jsPartValue x y := by
  simp [parseProgress, h0, h1, h2, h3, h4, h5]

example : percentMatch ("Process completed 100%".toList) = some 100 := by decide
example : partOfMatch ("Transcribing part 3 of 10".toList) = some (3, 10) := by decide
example : parseProgress ("Starting transcription...".toList) = .fin 5 := by decide
example : parseProgress ("Transcribing part 1 of 0".toList) = .inf := by decide
example : parseProgress ("Starting %".toList) = .fin 0 := by decide
example : parseProgress ("Transcribing part 3 of 10".toList) = .fin 55 := by
  rw [parseProgress_part _ 3 10 (by decide) (by decide) (by decide) (by decide)
    (by decide) (by decide)]
  unfold jsPartValue
  norm_num
example : parseProgress ("Process completed 100%".toList) = .fin 100 := by
  rw [parseProgress_percent_some _ 100 (by decide) (by decide)]
  norm_num
example : parseProgress ("12% 5%".toList) = .fin 12 := by
  rw [parseProgress_percent_some _ 12 (by decide) (by decide)]
  norm_num

/-- Fields of a state after `resetStateS`. -/
lemma resetStateS_fields (st : ClientState) :
    (resetStateS st).isTranscribing = false
    ∧ (resetStateS st).buttonDisabled = false
    ∧ (resetStateS st).inputDisabled = false
    ∧ (resetStateS st).progressInterval = none
    ∧ (resetStateS st).progressText = st.progressText
    ∧ (resetStateS st).progressBarValue = st.progressBarValue
    ∧ (resetStateS st).nextTimerId = st.nextTimerId := by
  unfold resetStateS
  cases h : st.progressInterval <;> simp [h]

/-- Timer effect of `resetStateS`: the stored interval is removed from the
live set and forgotten; with no stored interval the live set is untouched. -/
lemma resetStateS_timers (st : ClientState) :
    (st.progressInterval = none → (resetStateS st).activeTimers = st.activeTimers)
    ∧ (∀ id, st.progressInterval = some id →
        (resetStateS st).activeTimers = st.activeTimers.filter (fun t => t != id)) := by
  unfold resetStateS
  cases h : st.progressInterval <;> simp [h]

/-- Fields of a state after `showErrorS`. -/
lemma showErrorS_fields (st : ClientState) (m : List Char) :
    (showErrorS st m).progressText = ("Error: ".toList) ++ m
    ∧ (showErrorS st m).isTranscribing = false
    ∧ (showErrorS st m).buttonDisabled = false
    ∧ (showErrorS st m).inputDisabled = false
    ∧ (showErrorS st m).progressInterval = none
    ∧ (showErrorS st m).progressBarValue = st.progressBarValue := by
  unfold showErrorS resetStateS
  cases h : st.progressInterval <;> simp [h]

/-- Fields of a state after `applyUpdateUI`. -/
lemma applyUpdateUI_fields (st : ClientState) (u : UIUpdate) :
    (applyUpdateUI st u).progressInterval = st.progressInterval
    ∧ (applyUpdateUI st u).activeTimers = st.activeTimers
    ∧ (applyUpdateUI st u).nextTimerId = st.nextTimerId
    ∧ (applyUpdateUI st u).isTranscribing = st.isTranscribing
    ∧ (applyUpdateUI st u).progressBarValue = jsNumOr0 u.progress
    ∧ (applyUpdateUI st u).buttonDisabled = u.isT
    ∧ (applyUpdateUI st u).inputDisabled = u.isT := by
  simp [applyUpdateUI]

/-- Filtering away the only element empties the list. -/
lemma filter_bne_singleton (id : ℕ) : [id].filter (fun t => t != id) = [] := by
  simp

/-- Resetting a timer-consistent state leaves no live timer. -/
lemma resetStateS_clears (st : ClientState) (h : timerOk st = true) :
    (resetStateS st).activeTimers = [] ∧ (resetStateS st).progressInterval = none := by
  unfold timerOk at h
  cases hpi : st.progressInterval with
  | none =>
      rw [hpi] at h
      simp only [List.isEmpty_iff] at h
      exact ⟨((resetStateS_timers st).1 hpi).trans h, (resetStateS_fields st).2.2.2.1⟩
  | some id =>
      rw [hpi] at h
      simp only [Bool.and_eq_true, beq_iff_eq] at h
      refine ⟨((resetStateS_timers st).2 id hpi).trans ?_, (resetStateS_fields st).2.2.2.1⟩
      rw [h.1]
      exact filter_bne_singleton id

/-- Resetting preserves timer consistency. -/
lemma timerOk_resetStateS (st : ClientState) (h : timerOk st = true) :
    timerOk (resetStateS st) = true := by
  have hc := resetStateS_clears st h
  unfold timerOk
  rw [hc.2, hc.1]
  rfl

/-- Showing an error preserves timer consistency. -/
lemma timerOk_showErrorS (st : ClientState) (m : List Char) (h : timerOk st = true) :
    timerOk (showErrorS st m) = true := by
  unfold showErrorS
  refine timerOk_resetStateS _ ?_
  unfold timerOk at h ⊢
  exact h

/-- Showing an error leaves no live timer (from a timer-consistent state). -/
lemma showErrorS_clears (st : ClientState) (m : List Char) (h : timerOk st = true) :
    (showErrorS st m).activeTimers = [] ∧ (showErrorS st m).progressInterval = none := by
  unfold showErrorS
  exact resetStateS_clears _ (by unfold timerOk at h ⊢; exact h)

/-- Updating the UI preserves timer consistency. -/
lemma timerOk_applyUpdateUI (st : ClientState) (u : UIUpdate) :
    timerOk (applyUpdateUI st u) = timerOk st := by
  simp [timerOk, applyUpdateUI]

/-- Starting the polling interval yields a timer-consistent state whose
only live timer is the fresh one. -/
lemma startProgressChecking_timers (st : ClientState) (h : timerOk st = true) :
    (startProgressChecking st).activeTimers = [st.nextTimerId]
    ∧ (startProgressChecking st).progressInterval = some st.nextTimerId
    ∧ (startProgressChecking st).nextTimerId = st.nextTimerId + 1 := by
  unfold timerOk at h
  unfold startProgressChecking
  cases hpi : st.progressInterval with
  | none =>
      rw [hpi] at h
      simp only [List.isEmpty_iff] at h
      simp [hpi, h]
  | some id =>
      rw [hpi] at h
      simp only [Bool.and_eq_true, beq_iff_eq] at h
      simp [hpi, h.1]

/-- Starting the polling interval preserves timer consistency. -/
lemma timerOk_startProgressChecking (st : ClientState) (h : timerOk st = true) :
    timerOk (startProgressChecking st) = true := by
  have ht := startProgressChecking_timers st h
  unfold timerOk
  rw [ht.2.1, ht.1, ht.2.2]
  simp [Nat.blt_eq]

/-- Timer consistency propagates through one polling tick. -/
lemma timerOk_checkProgressStep (st : ClientState) (r : ProgressResponse)
    (h : timerOk st = true) : timerOk (checkProgressStep st r).state = true := by
  have h1 : timerOk (tickUpdate st r) = true := by
    unfold tickUpdate
    split
    · rw [timerOk_applyUpdateUI]; exact h
    · exact h
  have h2 : timerOk (tickComplete (tickUpdate st r) r) = true := by
    unfold tickComplete
    split
    · exact timerOk_resetStateS _ (by rw [timerOk_applyUpdateUI]; exact h1)
    · exact h1
  unfold checkProgressStep
  split
  · exact timerOk_showErrorS _ _ h
  · split
    · exact timerOk_showErrorS _ _ h2
    · exact h2

/-- Every reachable state is timer-consistent. -/
lemma timerOk_reachable (st : ClientState) (h : Reachable st) : timerOk st = true := by
  induction h with
  | init => decide
  | click st raw modelv _ ih =>
      simp only [clickStep]
      split
      · exact timerOk_showErrorS _ _ ih
      · split
        · exact timerOk_showErrorS _ _ ih
        · show timerOk (applyUpdateUI { st with isTranscribing := true } submitUpdate) = true
          rw [timerOk_applyUpdateUI]
          exact ih
  | submit st r _ ih =>
      unfold submitResponseStep
      split
      · exact timerOk_startProgressChecking _ ih
      · exact timerOk_showErrorS _ _ ih
  | tick st r _ _ ih => exact timerOk_checkProgressStep st r ih

/-- A tick's UI update preserves timer consistency. -/
lemma timerOk_tickUpdate (st : ClientState) (r : ProgressResponse)
    (h : timerOk st = true) : timerOk (tickUpdate st r) = true := by
  unfold tickUpdate
  split
  · rw [timerOk_applyUpdateUI]; exact h
  · exact h

/-- Timer fields are preserved by a tick's UI update. -/
lemma tickUpdate_timers (st : ClientState) (r : ProgressResponse) :
    (tickUpdate st r).activeTimers = st.activeTimers
    ∧ (tickUpdate st r).progressInterval = st.progressInterval := by
  unfold tickUpdate
  split
  · exact ⟨(applyUpdateUI_fields _ _).2.1, (applyUpdateUI_fields _ _).1⟩
  · exact ⟨rfl, rfl⟩

/-- On a completion signal, `tickComplete` shows 100, clears the busy flag
and leaves no live timer; the result is timer-consistent again. -/
lemma tickComplete_completed (st : ClientState) (r : ProgressResponse)
    (hfl : completedFlag r = true) (h : timerOk st = true) :
    (tickComplete st r).progressBarValue = JSNum.fin 100
    ∧ (tickComplete st r).isTranscribing = false
    ∧ (tickComplete st r).progressInterval = none
    ∧ (tickComplete st r).activeTimers = []
    ∧ timerOk (tickComplete st r) = true := by
  unfold tickComplete
  rw [hfl, if_pos rfl]
  have hup : timerOk (applyUpdateUI st (completeUpdate r)) = true := by
    rw [timerOk_applyUpdateUI]; exact h
  have hcl := resetStateS_clears _ hup
  have h1 := resetStateS_fields (applyUpdateUI st (completeUpdate r))
  have h2 := applyUpdateUI_fields st (completeUpdate r)
  refine ⟨?_, h1.1, hcl.2, hcl.1, timerOk_resetStateS _ hup⟩
  rw [h1.2.2.2.2.2.1, h2.2.2.2.2.1]
  simp only [completeUpdate]
  decide

/-- Splitting `takeWhile`/`dropWhile` around a block that satisfies the
predicate followed by a head that does not. -/
lemma takeWhile_app (p : Char → Bool) (ds rest : List Char)
    (hds : ds.all p = true) (hr : ∀ x, rest.head? = some x → p x = false) :
    (ds ++ rest).takeWhile p = ds ∧ (ds ++ rest).dropWhile p = rest := by
  induction ds with
  | nil =>
      cases rest with
      | nil => exact ⟨rfl, rfl⟩
      | cons r rs =>
          have := hr r rfl
          simp [List.takeWhile, List.dropWhile, this]
  | cons d ds' ih =>
      simp only [List.all_cons, Bool.and_eq_true] at hds
      have ihr := ih hds.2
      simp [List.takeWhile, List.dropWhile, hds.1, ihr.1, ihr.2]

/-- When a list contains an element refuting the predicate, `dropWhile`
over the list extended by anything stops at an element of the list. -/
lemma dropWhile_head_in (p : Char → Bool) (l R : List Char)
    (h : ∃ c ∈ l, p c = false) :
    ∃ e tl, (l ++ R).dropWhile p = e :: tl ∧ e ∈ l ∧ p e = false := by
  induction l with
  | nil => simp at h
  | cons c cs ih =>
      cases hpc : p c with
      | false =>
          refine ⟨c, cs ++ R, ?_, List.mem_cons_self c cs, hpc⟩
          simp [List.dropWhile, hpc]
      | true =>
          obtain ⟨c', hc', hpc'⟩ := h
          rcases List.mem_cons.mp hc' with rfl | hc'
          · rw [hpc] at hpc'; exact Bool.noConfusion hpc'
          · obtain ⟨e, tl, h1, h2, h3⟩ := ih ⟨c', hc', hpc'⟩
            refine ⟨e, tl, ?_, List.mem_cons_of_mem c h2, h3⟩
            simpa [List.dropWhile, hpc] using h1

/-- Containment of a single character is membership. -/
lemma hasSub_singleton (c : Char) (l : List Char) :
    hasSub [c] l = true ↔ c ∈ l := by
  induction l with
  | nil => simp [hasSub, listPrefixB]
  | cons x xs ih => simp [hasSub, listPrefixB, ih]

/-- Dropping the head preserves the last-character condition. -/
lemma lastNotDigit_of_cons (x : Char) (a : List Char)
    (h : lastNotDigit (x :: a) = true) : lastNotDigit a = true := by
  cases a with
  | nil => rfl
  | cons y a' =>
      unfold lastNotDigit at h ⊢
      rwa [List.getLast?_cons_cons] at h

/-- The last character witnesses a non-digit member of a nonempty list
satisfying `lastNotDigit`. -/
lemma lastNotDigit_mem (x : Char) (a : List Char)
    (h : lastNotDigit (x :: a) = true) :
    ∃ c ∈ (x :: a), c.isDigit = false := by
  induction a generalizing x with
  | nil =>
      unfold lastNotDigit at h
      simp only [List.getLast?_singleton] at h
      exact ⟨x, List.mem_cons_self x [], by simpa using h⟩
  | cons y a' ih =>
      unfold lastNotDigit at h
      rw [List.getLast?_cons_cons] at h
      obtain ⟨c, hc, hpc⟩ := ih y h
      exact ⟨c, List.mem_cons_of_mem x hc, hpc⟩

/-- Leftmost-match property of the percent scan: when nothing to the left
can match (no percent sign in `a`, and the digit run is maximal to the
left), the scan returns exactly the parsed run. -/
lemma percentMatch_left (ds b : List Char) (hne : ds ≠ [])
    (hds : ds.all Char.isDigit = true) :
    ∀ a : List Char, '%' ∉ a → lastNotDigit a = true →
      percentMatch (a ++ ds ++ '%' :: b) = some (digitsToNat ds) := by
  intro a
  induction a with
  | nil =>
      intro _ _
      cases ds with
      | nil => exact absurd rfl hne
      | cons d ds' =>
          have hsplit := takeWhile_app Char.isDigit (d :: ds') ('%' :: b) hds
            (by intro x hx; injection hx with hx; rw [← hx]; decide)
          rw [List.nil_append, List.cons_append]
          rw [percentMatch]
          rw [if_pos]
          · rw [← List.cons_append, hsplit.1]
          · rw [← List.cons_append, hsplit.1, hsplit.2]
            exact ⟨hne, rfl⟩
  | cons x a' ih =>
      intro hp hl
      obtain ⟨e, tl, hd, hmem, hpe⟩ :=
        dropWhile_head_in Char.isDigit (x :: a') (ds ++ '%' :: b)
          (lastNotDigit_mem x a' hl)
      have he : e ≠ '%' := fun hh => hp (hh ▸ hmem)
      rw [List.cons_append, List.cons_append]
      rw [percentMatch]
      rw [if_neg]
      · exact ih (fun hm => hp (List.mem_cons_of_mem x hm)) (lastNotDigit_of_cons x a' hl)
      · rintro ⟨-, h2⟩
        simp only [List.cons_append, List.append_assoc] at hd h2
        rw [hd] at h2
        injection h2 with h2
        exact he h2

/-- C1 (counterexample): the claim read over every digit run immediately
followed by a percent sign is false, because the scan returns the first
match only: in `"12% 5%"` the run `5` is maximal and immediately
precedes a percent sign, yet `parseProgress` returns 12, not 5. -/
theorem percent_rule_counterexample : ¬ percentClaim := by
  intro h
  have h5 := h ("12% ".toList) ['5'] [] (by decide) (by decide) (by decide)
  rw [show ("12% ".toList) ++ ['5'] ++ '%' :: ([] : List Char) = "12% 5%".toList
    from by decide] at h5
  rw [parseProgress_percent_some ("12% 5%".toList) 12 (by decide) (by decide)] at h5
  rw [show digitsToNat ['5'] = 5 from by decide] at h5
  injection h5 with h5
  have h12 : (12 : ℕ) = 5 := Nat.cast_injective h5
  exact absurd h12 (by decide)

/-- C1 (amended): for every input of the shape `a ++ ds ++ '%' :: b` where
`ds` is a nonempty digit run, maximal to the left, and no percent sign
occurs before it, `parseProgress` returns `ds` parsed as an integer:
the percent rule returns the leftmost digit run immediately followed by
a percent sign. -/
theorem percent_rule_amended (a ds b : List Char) (hne : ds ≠ [])
    (hds : ds.all Char.isDigit = true) (hp : '%' ∉ a)
    (hl : lastNotDigit a = true) :
    parseProgress (a ++ ds ++ '%' :: b) = JSNum.fin ((digitsToNat ds : ℕ) : ℚ) := by
  have hm := percentMatch_left ds b hne hds a hp hl
  refine parseProgress_percent_some _ _ ?_ hm
  rw [hasSub_singleton]
  simp

/-- C1 (witness): `"val 42% done"` parses to 42. -/
theorem percent_rule_amended_witness :
    parseProgress (("val ".toList) ++ ['4', '2'] ++ '%' :: (" done".toList))
      = JSNum.fin ((digitsToNat ['4', '2'] : ℕ) : ℚ) :=
  percent_rule_amended ("val ".toList) ['4', '2'] (" done".toList)
    (by decide) (by decide) (by decide) (by decide)

/-- C2 (counterexample): the result of `parseProgress` is not always an
integer in the interval 0 to 100: `"200%"` yields 200, and
`"Transcribing part 1 of 3"` yields the non-integer 170/3. -/
theorem progress_range_counterexample :
    (¬ ∃ n : ℕ, n ≤ 100 ∧ parseProgress ("200%".toList) = JSNum.fin (n : ℚ))
    ∧ (¬ ∃ n : ℕ,
        parseProgress ("Transcribing part 1 of 3".toList) = JSNum.fin (n : ℚ)) := by
  constructor
  · rintro ⟨n, hn, he⟩
    rw [parseProgress_percent_some _ 200 (by decide) (by decide)] at he
    injection he with he
    have h200 : (200 : ℕ) = n := Nat.cast_injective he
    omega
  · rintro ⟨n, he⟩
    rw [parseProgress_part _ 1 3 (by decide) (by decide) (by decide) (by decide)
      (by decide) (by decide)] at he
    unfold jsPartValue at he
    rw [if_neg (by norm_num)] at he
    injection he with he
    push_cast at he
    have h3 : (3 : ℚ) * (n : ℚ) = 170 := by linarith [he]
    have h3n : 3 * n = 170 := by exact_mod_cast h3
    omega

/-- C2 (amended): whenever the percent match (if any) is at most 100 and
the part match (if any) has a positive total not smaller than the
current part, `parseProgress` returns a finite value in the interval
0 to 100 (though not always an integer). -/
theorem progress_range_amended (t : List Char)
    (h1 : percentOk t = true) (h2 : partOk t = true) :
    ∃ q : ℚ, parseProgress t = JSNum.fin q ∧ 0 ≤ q ∧ q ≤ 100 := by
  unfold parseProgress
  split
  · cases hm : percentMatch t with
    | none => exact ⟨0, rfl, le_refl 0, by norm_num⟩
    | some n =>
        have hn : n ≤ 100 := by
          unfold percentOk at h1
          rw [hm] at h1
          exact of_decide_eq_true h1
        exact ⟨(n : ℚ), rfl, by positivity, by exact_mod_cast hn⟩
  · split
    · exact ⟨5, rfl, by norm_num, by norm_num⟩
    · split
      · exact ⟨20, rfl, by norm_num, by norm_num⟩
      · split
        · exact ⟨40, rfl, by norm_num, by norm_num⟩
        · cases hT : hasSub kwTranscribing t with
          | false =>
              cases hC : hasSub kwCompleted t with
              | false => exact ⟨0, rfl, by norm_num, by norm_num⟩
              | true => exact ⟨100, rfl, by norm_num, by norm_num⟩
          | true =>
              cases hm : partOfMatch t with
              | none =>
                  cases hC : hasSub kwCompleted t with
                  | false => exact ⟨0, rfl, by norm_num, by norm_num⟩
                  | true => exact ⟨100, rfl, by norm_num, by norm_num⟩
              | some p =>
                  obtain ⟨x, y⟩ := p
                  have hxy : 0 < y ∧ x ≤ y := by
                    unfold partOk at h2
                    rw [hm] at h2
                    exact of_decide_eq_true h2
                  show ∃ q : ℚ, jsPartValue x y = JSNum.fin q ∧ 0 ≤ q ∧ q ≤ 100
                  unfold jsPartValue
                  rw [if_neg (Nat.pos_iff_ne_zero.mp hxy.1)]
                  refine ⟨_, rfl, ?_, ?_⟩
                  · positivity
                  · have hy' : (0 : ℚ) < (y : ℚ) := by exact_mod_cast hxy.1
                    have hd : (x : ℚ) / (y : ℚ) ≤ 1 := by
                      rw [div_le_one hy']
                      exact_mod_cast hxy.2
                    linarith

/-- C2 (witness): `"Transcribing part 3 of 10"` yields a value in range. -/
theorem progress_range_amended_witness :
    ∃ q : ℚ, parseProgress ("Transcribing part 3 of 10".toList) = JSNum.fin q
      ∧ 0 ≤ q ∧ q ≤ 100 :=
  progress_range_amended ("Transcribing part 3 of 10".toList) (by decide) (by decide)

/-- C3 (counterexample): with `X > Y` the part formula exceeds 90:
`"Transcribing part 5 of 2"` yields 165. -/
theorem part_formula_counterexample :
    parseProgress ("Transcribing part 5 of 2".toList) = JSNum.fin 165
    ∧ ¬ ((165 : ℚ) ≤ 90) := by
  constructor
  · rw [parseProgress_part _ 5 2 (by decide) (by decide) (by decide) (by decide)
      (by decide) (by decide)]
    unfold jsPartValue
    rw [if_neg (by norm_num)]
    norm_num
  · norm_num

/-- C3 (amended): for a text containing no percent sign and none of the
earlier keywords, containing `"Transcribing"` with a `part X of Y`
match whose total `Y` is positive, `parseProgress` returns
`40 + (X/Y)*50`, and this is at most 90 whenever `X ≤ Y`. -/
theorem part_formula_amended (t : List Char) (x y : ℕ)
    (h0 : hasSub ['%'] t = false)
    (h1 : hasSub kwStarting t = false)
    (h2 : hasSub kwDownload t = false)
    (h3 : hasSub kwProcessing t = false)
    (h4 : hasSub kwTranscribing t = true)
    (h5 : partOfMatch t = some (x, y)) (hy : 0 < y) :
    parseProgress t = JSNum.fin (40 + ((x : ℚ) / (y : ℚ)) * 50)
    ∧ (x ≤ y → 40 + ((x : ℚ) / (y : ℚ)) * 50 ≤ 90) := by
  constructor
  · rw [parseProgress_part t x y h0 h1 h2 h3 h4 h5]
    unfold jsPartValue
    rw [if_neg (Nat.pos_iff_ne_zero.mp hy)]
  · intro hxy
    have hy' : (0 : ℚ) < (y : ℚ) := by exact_mod_cast hy
    have hd : (x : ℚ) / (y : ℚ) ≤ 1 := by
      rw [div_le_one hy']
      exact_mod_cast hxy
    linarith

/-- C3 (witness): `"Transcribing part 3 of 10"` yields `40 + (3/10)*50`,
which is at most 90. -/
theorem part_formula_amended_witness :
    parseProgress ("Transcribing part 3 of 10".toList)
      = JSNum.fin (40 + (((3 : ℕ) : ℚ) / ((10 : ℕ) : ℚ)) * 50)
    ∧ ((3 : ℕ) ≤ (10 : ℕ) →
        40 + (((3 : ℕ) : ℚ) / ((10 : ℕ) : ℚ)) * 50 ≤ 90) :=
  part_formula_amended ("Transcribing part 3 of 10".toList) 3 10
    (by decide) (by decide) (by decide) (by decide) (by decide) (by decide) (by decide)

/-- C4 (counterexample): a text containing a percent sign never falls
through to the keyword rules: `"Starting %"` returns 0, not 5. -/
theorem priority_order_counterexample :
    parseProgress ("Starting %".toList) = JSNum.fin 0
    ∧ JSNum.fin 0 ≠ JSNum.fin 5 := ⟨by decide, by decide⟩

/-- C4 (amended): the rules of `parseProgress` in their actual priority
order: any text containing a percent sign is handled exclusively by the
percent rule (returning 0 when no digits precede a percent sign, never
falling through); otherwise the keyword rules apply in order
`Starting`, `download`, `Processing`, `Transcribing`/part-match,
`completed`, default 0. -/
theorem priority_order_amended (t : List Char) :
    (hasSub ['%'] t = true → ∀ n : ℕ, percentMatch t = some n →
        parseProgress t = JSNum.fin (n : ℚ))
    ∧ (hasSub ['%'] t = true → percentMatch t = none →
        parseProgress t = JSNum.fin 0)
    ∧ (hasSub ['%'] t = false → hasSub kwStarting t = true →
        parseProgress t = JSNum.fin 5)
    ∧ (hasSub ['%'] t = false → hasSub kwStarting t = false →
        hasSub kwDownload t = true → parseProgress t = JSNum.fin 20)
    ∧ (hasSub ['%'] t = false → hasSub kwStarting t = false →
        hasSub kwDownload t = false → hasSub kwProcessing t = true →
        parseProgress t = JSNum.fin 40)
    ∧ (hasSub ['%'] t = false → hasSub kwStarting t = false →
        hasSub kwDownload t = false → hasSub kwProcessing t = false →
        hasSub kwTranscribing t = true → ∀ x y : ℕ, partOfMatch t = some (x, y) →
        parseProgress t = jsPartValue x y)
    ∧ (hasSub ['%'] t = false → hasSub kwStarting t = false →
        hasSub kwDownload t = false → hasSub kwProcessing t = false →
        (hasSub kwTranscribing t = false ∨ partOfMatch t = none) →
        hasSub kwCompleted t = true → parseProgress t = JSNum.fin 100)
    ∧ (hasSub ['%'] t = false → hasSub kwStarting t = false →
        hasSub kwDownload t = false → hasSub kwProcessing t = false →
        (hasSub kwTranscribing t = false ∨ partOfMatch t = none) →
        hasSub kwCompleted t = false → parseProgress t = JSNum.fin 0) := by
  refine ⟨?_, ?_, ?_, ?_, ?_, ?_, ?_, ?_⟩
  · intro h0 n h1
    exact parseProgress_percent_some t n h0 h1
  · intro h0 h1
    exact parseProgress_percent_none t h0 h1
  · intro h0 h1
    simp [parseProgress, h0, h1]
  · intro h0 h1 h2
    simp [parseProgress, h0, h1, h2]
  · intro h0 h1 h2 h3
    simp [parseProgress, h0, h1, h2, h3]
  · intro h0 h1 h2 h3 h4 x y h5
    exact parseProgress_part t x y h0 h1 h2 h3 h4 h5
  · rintro h0 h1 h2 h3 (h4 | h4) h5 <;>
      simp [parseProgress, h0, h1, h2, h3, h4, h5]
  · rintro h0 h1 h2 h3 (h4 | h4) h5 <;>
      simp [parseProgress, h0, h1, h2, h3, h4, h5]

/-- C4 (witness): `"Starting transcription..."` returns 5 through the
keyword rule since it contains no percent sign. -/
theorem priority_order_amended_witness :
    parseProgress ("Starting transcription...".toList) = JSNum.fin 5 :=
  (priority_order_amended ("Starting transcription...".toList)).2.2.1
    (by decide) (by decide)

/-- C5: a submission whose trimmed URL is empty, or lacks both video-host
markers, issues no network request, shows a validation error, and
leaves the session not busy with both controls enabled. -/
theorem submit_validation_local (st : ClientState) (raw modelv : List Char)
    (h : trimL raw = []
      ∨ (hasSub ("youtube.com/".toList) (trimL raw) = false
          ∧ hasSub ("youtu.be/".toList) (trimL raw) = false)) :
    (clickStep st raw modelv).2 = none
    ∧ ((clickStep st raw modelv).1.progressText
          = ("Error: Please enter a YouTube URL".toList)
        ∨ (clickStep st raw modelv).1.progressText
          = ("Error: Please enter a valid YouTube URL".toList))
    ∧ (clickStep st raw modelv).1.isTranscribing = false
    ∧ (clickStep st raw modelv).1.buttonDisabled = false
    ∧ (clickStep st raw modelv).1.inputDisabled = false := by
  cases hemp : (trimL raw).isEmpty with
  | true =>
      have hf := showErrorS_fields st ("Please enter a YouTube URL".toList)
      simp only [clickStep, hemp, if_true]
      exact ⟨by trivial, Or.inl (hf.1.trans (by decide)), hf.2.1, hf.2.2.1, hf.2.2.2.1⟩
  | false =>
      rcases h with h | h
      · rw [h] at hemp
        exact Bool.noConfusion hemp
      · have hf := showErrorS_fields st ("Please enter a valid YouTube URL".toList)
        simp only [clickStep, hemp, h.1, h.2, Bool.false_eq_true, if_false,
          Bool.not_false, Bool.and_self, if_true]
        exact ⟨by trivial, Or.inr (hf.1.trans (by decide)), hf.2.1, hf.2.2.1, hf.2.2.2.1⟩

/-- C5 (witness): submitting `"example.com/video"` is rejected locally. -/
theorem submit_validation_local_witness :
    (clickStep initState ("example.com/video".toList) ("base".toList)).2 = none
    ∧ ((clickStep initState ("example.com/video".toList) ("base".toList)).1.progressText
          = ("Error: Please enter a YouTube URL".toList)
        ∨ (clickStep initState ("example.com/video".toList) ("base".toList)).1.progressText
          = ("Error: Please enter a valid YouTube URL".toList))
    ∧ (clickStep initState ("example.com/video".toList) ("base".toList)).1.isTranscribing = false
    ∧ (clickStep initState ("example.com/video".toList) ("base".toList)).1.buttonDisabled = false
    ∧ (clickStep initState ("example.com/video".toList) ("base".toList)).1.inputDisabled = false :=
  submit_validation_local initState ("example.com/video".toList) ("base".toList)
    (Or.inr ⟨by decide, by decide⟩)

/-- C6: a polling tick on an ok reply that signals completion (finished
flag, or a progress text containing `"completed"`) issues exactly one
cleanup request, displays 100, clears the busy flag, and leaves no
stored interval and no live timer, so no further tick can fire. -/
theorem tick_completion_cleanup (st : ClientState) (r : ProgressResponse)
    (hst : timerOk st = true) (hok : r.ok = true)
    (hfin : r.finished = true
      ∨ (truthyStr r.progress = true
          ∧ hasSub kwCompleted (r.progress.getD []) = true)) :
    (checkProgressStep st r).cleanups = 1
    ∧ (checkProgressStep st r).state.progressBarValue = JSNum.fin 100
    ∧ (checkProgressStep st r).state.isTranscribing = false
    ∧ (checkProgressStep st r).state.progressInterval = none
    ∧ (checkProgressStep st r).state.activeTimers = [] := by
  have hfl : completedFlag r = true := by
    unfold completedFlag
    rcases hfin with h | h
    · rw [h]; rfl
    · rw [h.1, h.2]; simp
  have h1 : timerOk (tickUpdate st r) = true := timerOk_tickUpdate st r hst
  have hcc := tickComplete_completed (tickUpdate st r) r hfl h1
  cases herr : truthyStr r.error with
  | false =>
      have hstep : checkProgressStep st r
          = { state := tickComplete (tickUpdate st r) r,
              cleanups := if completedFlag r then 1 else 0 } := by
        unfold checkProgressStep
        rw [hok, herr]
        rfl
      rw [hstep]
      exact ⟨by simp [hfl], hcc.1, hcc.2.1, hcc.2.2.1, hcc.2.2.2.1⟩
  | true =>
      have hstep : checkProgressStep st r
          = { state := showErrorS (tickComplete (tickUpdate st r) r)
                (strOr r.error ("Error checking progress".toList)),
              cleanups := if completedFlag r then 1 else 0 } := by
        unfold checkProgressStep
        rw [hok, herr]
        rfl
      have hsf := showErrorS_fields (tickComplete (tickUpdate st r) r)
        (strOr r.error ("Error checking progress".toList))
      have hscl := showErrorS_clears (tickComplete (tickUpdate st r) r)
        (strOr r.error ("Error checking progress".toList)) hcc.2.2.2.2
      rw [hstep]
      exact ⟨by simp [hfl], hsf.2.2.2.2.2.trans hcc.1, hsf.2.1, hscl.2, hscl.1⟩

/-- C6 (witness): a finished reply received while the polling interval is
live triggers one cleanup and clears the timer. -/
theorem tick_completion_cleanup_witness :
    (checkProgressStep (startProgressChecking initState) demoFinished).cleanups = 1
    ∧ (checkProgressStep (startProgressChecking initState) demoFinished).state.progressBarValue
        = JSNum.fin 100
    ∧ (checkProgressStep (startProgressChecking initState) demoFinished).state.isTranscribing
        = false
    ∧ (checkProgressStep (startProgressChecking initState) demoFinished).state.progressInterval
        = none
    ∧ (checkProgressStep (startProgressChecking initState) demoFinished).state.activeTimers
        = [] :=
  tick_completion_cleanup (startProgressChecking initState) demoFinished
    (by decide) rfl (Or.inl rfl)

/-- C7: a polling tick whose reply carries a nonempty error field always
takes the error path: the error text is displayed and the state is
reset, whatever the other fields contain. -/
theorem tick_error_path (st : ClientState) (r : ProgressResponse) (e : List Char)
    (he : r.error = some e) (hne : e ≠ []) :
    (checkProgressStep st r).state.progressText = ("Error: ".toList) ++ e
    ∧ (checkProgressStep st r).state.isTranscribing = false
    ∧ (checkProgressStep st r).state.progressInterval = none
    ∧ (checkProgressStep st r).state.buttonDisabled = false
    ∧ (checkProgressStep st r).state.inputDisabled = false := by
  have htr : truthyStr r.error = true := by
    rw [he]
    cases e with
    | nil => exact absurd rfl hne
    | cons a as => rfl
  have hmsg : ∀ d : List Char, strOr r.error d = e := by
    intro d
    unfold strOr
    rw [he]
    cases e with
    | nil => exact absurd rfl hne
    | cons a as => rfl
  cases hok : r.ok with
  | false =>
      have hstep : checkProgressStep st r
          = { state := showErrorS st (strOr r.error ("Failed to check progress".toList)),
              cleanups := 0 } := by
        unfold checkProgressStep
        rw [hok]
        rfl
      have hf := showErrorS_fields st (strOr r.error ("Failed to check progress".toList))
      rw [hstep]
      exact ⟨hf.1.trans (by rw [hmsg ("Failed to check progress".toList)]),
        hf.2.1, hf.2.2.2.2.1, hf.2.2.1, hf.2.2.2.1⟩
  | true =>
      have hstep : checkProgressStep st r
          = { state := showErrorS (tickComplete (tickUpdate st r) r)
                (strOr r.error ("Error checking progress".toList)),
              cleanups := if completedFlag r then 1 else 0 } := by
        unfold checkProgressStep
        rw [hok, htr]
        rfl
      have hf := showErrorS_fields (tickComplete (tickUpdate st r) r)
        (strOr r.error ("Error checking progress".toList))
      rw [hstep]
      exact ⟨hf.1.trans (by rw [hmsg ("Error checking progress".toList)]),
        hf.2.1, hf.2.2.2.2.1, hf.2.2.1, hf.2.2.2.1⟩

/-- C7 (witness): a reply with both a progress text and the error
`"boom"` shows the error and resets. -/
theorem tick_error_path_witness :
    (checkProgressStep initState demoErrored).state.progressText
      = ("Error: ".toList) ++ ("boom".toList)
    ∧ (checkProgressStep initState demoErrored).state.isTranscribing = false
    ∧ (checkProgressStep initState demoErrored).state.progressInterval = none
    ∧ (checkProgressStep initState demoErrored).state.buttonDisabled = false
    ∧ (checkProgressStep initState demoErrored).state.inputDisabled = false :=
  tick_error_path initState demoErrored ("boom".toList) rfl (by decide)

/-- C8: in every reachable state at most one interval timer is live;
starting a new poll cancels any stored prior timer and installs exactly
the fresh one; resetting with no stored timer leaves the live set
untouched (idempotent cancellation). -/
theorem timer_single_active :
    (∀ st : ClientState, Reachable st → st.activeTimers.length ≤ 1)
    ∧ (∀ (st : ClientState) (id : ℕ), Reachable st → st.progressInterval = some id →
        (startProgressChecking st).activeTimers = [st.nextTimerId]
        ∧ id ∉ (startProgressChecking st).activeTimers)
    ∧ (∀ st : ClientState, st.progressInterval = none →
        (resetStateS st).activeTimers = st.activeTimers
        ∧ (resetStateS st).progressInterval = none) := by
  refine ⟨?_, ?_, ?_⟩
  · intro st h
    have hok := timerOk_reachable st h
    unfold timerOk at hok
    cases hpi : st.progressInterval with
    | none =>
        rw [hpi] at hok
        have he : st.activeTimers = [] := by simpa using hok
        rw [he]
        simp
    | some id =>
        rw [hpi] at hok
        simp only [Bool.and_eq_true, beq_iff_eq] at hok
        rw [hok.1]
        simp
  · intro st id h hpi
    have hok := timerOk_reachable st h
    have hs := startProgressChecking_timers st hok
    refine ⟨hs.1, ?_⟩
    rw [hs.1]
    unfold timerOk at hok
    rw [hpi] at hok
    simp only [Bool.and_eq_true, beq_iff_eq, Nat.blt_eq] at hok
    simp only [List.mem_singleton]
    exact Nat.ne_of_lt hok.2
  · intro st hpi
    exact ⟨(resetStateS_timers st).1 hpi, (resetStateS_fields st).2.2.2.1⟩

/-- C8 (witness): the invariant at a state with a live poll, cancellation
of its timer by a new poll, and no-op reset at the idle initial state. -/
theorem timer_single_active_witness :
    demoSubmitted.activeTimers.length ≤ 1
    ∧ ((startProgressChecking demoSubmitted).activeTimers = [demoSubmitted.nextTimerId]
        ∧ 0 ∉ (startProgressChecking demoSubmitted).activeTimers)
    ∧ ((resetStateS initState).activeTimers = initState.activeTimers
        ∧ (resetStateS initState).progressInterval = none) :=
  ⟨timer_single_active.1 demoSubmitted
      (Reachable.submit _ _ (Reachable.click _ _ _ Reachable.init)),
   timer_single_active.2.1 demoSubmitted 0
      (Reachable.submit _ _ (Reachable.click _ _ _ Reachable.init)) (by decide),
   timer_single_active.2.2 initState rfl⟩

/-- C9: keyword matching is case-sensitive substring containment:
`"Downloading video"` matches no rule and yields 0, while the
lowercase `"downloading video"` contains `"download"` and yields 20. -/
theorem keyword_case_sensitive :
    parseProgress ("Downloading video".toList) = JSNum.fin 0
    ∧ parseProgress ("downloading video".toList) = JSNum.fin 20 :=
  ⟨by decide, by decide⟩

/-- C10: the part division is unguarded: on `"Transcribing part 1 of 0"`
the divisor is zero, the result is `Infinity`, and in particular no
finite value in the interval 0 to 100 is returned. -/
theorem part_division_unguarded :
    parseProgress ("Transcribing part 1 of 0".toList) = JSNum.inf
    ∧ ¬ ∃ q : ℚ, parseProgress ("Transcribing part 1 of 0".toList) = JSNum.fin q
        ∧ 0 ≤ q ∧ q ≤ 100 := by
  refine ⟨by decide, ?_⟩
  rintro ⟨q, hq, -, -⟩
  rw [show parseProgress ("Transcribing part 1 of 0".toList) = JSNum.inf
    from by decide] at hq
  exact JSNum.noConfusion hq
